import Mathlib

/-!
Shallow embedding of `test_scripts/wait_on_action.py` (GitHub Actions
workflow monitor): the run locator `get_matching_workflow_runs`, the
watcher `watch_workflow_run`, the validator `validate_conclusion` and the
orchestrator `wait_on_action`, together with proofs of the specification
claims about them.

The GitHub API is modelled as an explicit environment: the locator
receives the outcome of the client calls (the workflow list, or the
exception the client raised) as a `FetchResult`; the watcher receives the
successive results of `repo.get_workflow_run(run_id)` as a function from
poll index to `Except`.  `time.sleep` is modelled by accumulating the
slept seconds in an `elapsed` counter, and the unbounded `while` loops are
run on explicit fuel (the orchestrator passes `timeout + 1`, enough
whenever `poll_interval > 0`).  Log calls are modelled as emitted strings
so that verbosity-dependent branches of the source are preserved.
-/

namespace WaitOnAction

/-- A GitHub workflow run as the script reads it: `id`, `name`,
`display_title` (both nullable in the API, hence `Option`), `head_sha`,
`status`, `conclusion` (absent until completion) and `created_at`
(timestamp, modelled as an integer). -/
structure WorkflowRun where
  id : Nat
  name : Option String
  display_title : Option String
  head_sha : String
  status : String
  conclusion : Option String
  created_at : Int
  deriving Repr, DecidableEq

/-- A workflow definition: `name`, defining-file `path`, and its runs
(the result of `target_workflow.get_runs()`). -/
structure Workflow where
  name : String
  path : String
  runs : List WorkflowRun
  deriving Repr, DecidableEq

/-- Outcome of the GitHub client calls made inside the locator's `try`
block: the visible workflows, a `GithubException`, or any other
exception. -/
inductive FetchResult where
  | ok (workflows : List Workflow)
  | githubError (e : String)
  | otherError (e : String)
  deriving Repr, DecidableEq

/-- Python truthiness of an optional string (`if test_id:` and
`if not success_message:`): `None` and `""` are falsy. -/
def truthyStr : Option String → Bool
  | none => false
  | some s => !(s == "")

/-- Whether `needle` occurs as a contiguous sublist of the list (Python's
`needle in hay` on strings, character-wise). -/
def containsSub (needle : List Char) : List Char → Bool
  | [] => needle.isEmpty
  | c :: cs => needle.isPrefixOf (c :: cs) || containsSub needle cs

/-- Python's substring test `needle in hay`. -/
def strContains (hay needle : String) : Bool :=
  containsSub needle.toList hay.toList

/-- Python's `hay.endswith(post)`, character-wise. -/
def strEndsWith (hay post : String) : Bool :=
  post.toList.isSuffixOf hay.toList

/-- Model of `getattr(run, "display_title", "") or ""`. -/
def displayTitleOf (run : WorkflowRun) : String :=
  run.display_title.getD ""

/-- Model of `getattr(run, "name", "") or ""`. -/
def nameOf (run : WorkflowRun) : String :=
  run.name.getD ""

/-- The `for workflow in workflows: if workflow.name == workflow_name or
workflow.path.endswith(f"/…"): target_workflow = workflow; break` scan. -/
def findTargetWorkflow (workflows : List Workflow) (workflow_name : String) :
    Option Workflow :=
  workflows.find? fun workflow =>
    workflow.name == workflow_name ||
      strEndsWith workflow.path ("/" ++ workflow_name)

/-- The commit/test-id filter of `get_matching_workflow_runs`
(lines 74-87): with a truthy `test_id` a run must match the SHA and have
the test id as a substring of its display title or name; otherwise only
the SHA is checked. -/
def filterRuns (all_runs : List WorkflowRun) (commit_sha : String)
    (test_id : Option String) : List WorkflowRun :=
  if truthyStr test_id then
    let tid := test_id.getD ""
    all_runs.filter fun run =>
      run.head_sha == commit_sha &&
        (strContains (displayTitleOf run) tid ||
          strContains (nameOf run) tid)
  else
    all_runs.filter fun run => run.head_sha == commit_sha

/-- Insert a run into a list already sorted by `created_at` descending,
keeping it before strictly older runs and after earlier runs with the
same timestamp (stability). -/
def insertDesc (r : WorkflowRun) : List WorkflowRun → List WorkflowRun
  | [] => [r]
  | x :: xs =>
    if r.created_at < x.created_at then x :: insertDesc r xs
    else r :: x :: xs

/-- Model of `matching_runs.sort(key=lambda run: run.created_at, reverse=True)`:
stable sort, newest first (insertion sort, extensionally the stable
descending sort the source performs). -/
def sortNewestFirst (runs : List WorkflowRun) : List WorkflowRun :=
  runs.foldr insertDesc []

/-- Model of `get_matching_workflow_runs` (lines 29-102).  The first component is
the returned list, the second the emitted log lines.  The `try/except`
of the source is the match on `FetchResult`: both exception arms log and
return the empty list, so no exception escapes. -/
def get_matching_workflow_runs (fetch : FetchResult)
    (workflow_name commit_sha : String) (test_id : Option String) :
    List WorkflowRun × List String :=
  let headLogs :=
    ["Looking for workflow runs for commit " ++ commit_sha] ++
      (if truthyStr test_id then
        ["Also filtering by Test ID: " ++ test_id.getD ""]
      else [])
  match fetch with
  | .ok workflows =>
    match findTargetWorkflow workflows workflow_name with
    | none =>
      ([], headLogs ++ ["Workflow " ++ workflow_name ++ " not found"])
    | some target_workflow =>
      let matching_runs := filterRuns target_workflow.runs commit_sha test_id
      let sorted := sortNewestFirst matching_runs
      let tailLogs :=
        if truthyStr test_id && sorted.isEmpty then
          ["No runs found with Test ID: " ++ test_id.getD ""]
        else []
      (sorted, headLogs ++ tailLogs)
  | .githubError e => ([], headLogs ++ ["GitHub API error: " ++ e])
  | .otherError e => ([], headLogs ++ ["Error getting workflow runs: " ++ e])

/-- Python's `conclusion or "unknown"`: `None` and `""` are falsy, so
both give the default. -/
def conclusionOr (c : Option String) (d : String) : String :=
  match c with
  | none => d
  | some s => if s == "" then d else s

/-- Result of watching a run on finite fuel: the loop returned a
conclusion, the fetch raised (the exception propagates out of
`watch_workflow_run`, which has no `try`), or the fuel ran out while the
run was still not completed (the source loop would keep polling). -/
inductive WatchOutcome where
  | concluded (c : String)
  | fetchError (e : String)
  | stillPolling
  deriving Repr, DecidableEq

/-- The body of `watch_workflow_run`'s `while True` loop (lines 126-136),
on fuel, starting at poll index `i`: fetch the run, log its status,
return `conclusion or "unknown"` once `status == "completed"`, otherwise
sleep `poll_interval` and refetch.  Also returns the emitted log lines. -/
def watchFrom (fetch : Nat → Except String WorkflowRun) (run_id : Nat) :
    Nat → Nat → WatchOutcome × List String
  | 0, _ => (.stillPolling, [])
  | fuel + 1, i =>
    match fetch i with
    | .error e => (.fetchError e, [])
    | .ok run =>
      let line := "Run " ++ toString run_id ++ " - Status: " ++ run.status
      if run.status == "completed" then
        (.concluded (conclusionOr run.conclusion "unknown"), [line])
      else
        let rest := watchFrom fetch run_id fuel (i + 1)
        (rest.1, line :: rest.2)

/-- Model of `watch_workflow_run` (lines 105-136): watch the run with identifier
`run_id`, where `fetch n` is the result of the n-th
`repo.get_workflow_run(run_id)` call. -/
def watch_workflow_run (fetch : Nat → Except String WorkflowRun)
    (run_id : Nat) (fuel : Nat) : WatchOutcome × List String :=
  watchFrom fetch run_id fuel 0

/-- Model of `if not success_message: success_message = default` — `None` and the
empty string both trigger the default. -/
def msgOrDefault (m : Option String) (d : String) : String :=
  match m with
  | none => d
  | some s => if s == "" then d else s

/-- Model of `validate_conclusion` (lines 139-168): exit code 0 on exact string
equality of the conclusions, 1 otherwise, together with the emitted log
line.  Total: it never raises. -/
def validate_conclusion (actual_conclusion expected_conclusion : String)
    (success_message error_message : Option String) : Nat × List String :=
  let smsg := msgOrDefault success_message
    ("Test passed: Workflow completed with expected conclusion: " ++
      expected_conclusion)
  let emsg := msgOrDefault error_message
    ("Test failed: Workflow should have concluded with " ++
      expected_conclusion)
  if actual_conclusion == expected_conclusion then
    (0, ["✅ " ++ smsg])
  else
    (1, ["❌ " ++ emsg ++ " (got " ++ actual_conclusion ++ ")"])

/-- The external world of one `wait_on_action` invocation:
`fetchSched n` is what the GitHub client yields to the locator on its
n-th call, and `runFetch run_id n` is what `repo.get_workflow_run`
yields on the n-th poll of the watcher for `run_id`. -/
structure Env where
  fetchSched : Nat → FetchResult
  runFetch : Nat → Nat → Except String WorkflowRun

/-- How a modelled `wait_on_action` invocation ends: it returned an exit
code, an exception escaped it, or the fuel ran out while a loop was
still going (the source would still be polling). -/
inductive WaitOutcome where
  | exited (code : Nat)
  | raised (e : String)
  | stillRunning
  deriving Repr, DecidableEq

/-- Result of a modelled `wait_on_action` invocation: the outcome, the
total seconds slept by the orchestrator (initial delay plus search-loop
sleeps; watcher sleeps are not counted), which run was handed to the
watcher, and the emitted log lines. -/
structure WaitResult where
  outcome : WaitOutcome
  elapsed : Nat
  watched : Option WorkflowRun
  logs : List String
  deriving Repr, DecidableEq

/-- The `while time.time() < end_time and not workflow_found` loop of
`wait_on_action` (lines 225-280), on fuel.  `t` is the wall-clock time
relative to `start_time` (each locator call is instantaneous, each sleep
advances `t` by `poll_interval`), `attempt` the index of the next
locator call.  On a non-empty locator result the first run is watched
and the conclusion validated; on an empty one the loop logs (a debug
line when verbose, a progress dot otherwise), sleeps and retries; once
`t < timeout` fails the error is logged and exit code 2 returned.
The verbose debug line of source line 268 interpolates
`int(time.time() - start_time) // poll_interval + 1` (here
`t / poll_interval + 1`); that division is evaluated only when verbose
and raises `ZeroDivisionError` when `poll_interval = 0`, modelled by the
`raised` arm guarding the division. -/
def searchLoop (env : Env) (workflow_name commit_sha expected_conclusion : String)
    (test_id success_message error_message : Option String)
    (timeout poll_interval watchFuel : Nat) (verbose : Bool) :
    Nat → Nat → Nat → WaitResult
  | 0, _, _ => ⟨.stillRunning, 0, none, []⟩
  | fuel + 1, t, attempt =>
    if t < timeout then
      let located := get_matching_workflow_runs (env.fetchSched attempt)
        workflow_name commit_sha test_id
      match located.1 with
      | run :: _ =>
        let foundLog := "✅ Workflow triggered by commit " ++ commit_sha ++
          (if truthyStr test_id then
            " with Test ID " ++ test_id.getD "" else "") ++ "!"
        let detailLogs := if verbose then
            ["Workflow Details:",
             "  ID: " ++ toString run.id,
             "  Name: " ++ nameOf run,
             "  Display Title: " ++ displayTitleOf run,
             "  Status: " ++ run.status,
             "  Created: " ++ toString run.created_at]
          else []
        let watchLogs := ["Watching workflow run until completion:"]
        let watched := watch_workflow_run (env.runFetch run.id) run.id watchFuel
        match watched.1 with
        | .concluded final_conclusion =>
          let concludedLogs :=
            ["Workflow concluded with status: " ++ final_conclusion,
             "Expected status: " ++ expected_conclusion]
          let validated := validate_conclusion final_conclusion
            expected_conclusion success_message error_message
          ⟨.exited validated.1, 0, some run,
            located.2 ++ [foundLog] ++ detailLogs ++ watchLogs ++
              watched.2 ++ concludedLogs ++ validated.2⟩
        | .fetchError e =>
          ⟨.raised e, 0, some run,
            located.2 ++ [foundLog] ++ detailLogs ++ watchLogs ++ watched.2⟩
        | .stillPolling =>
          ⟨.stillRunning, 0, some run,
            located.2 ++ [foundLog] ++ detailLogs ++ watchLogs ++ watched.2⟩
      | [] =>
        if verbose && poll_interval == 0 then
          ⟨.raised "ZeroDivisionError: integer division or modulo by zero",
            0, none, located.2⟩
        else
          let dotLog := if verbose then
              ["Checking for workflow runs... (attempt " ++
                toString (t / poll_interval + 1) ++ ")"]
            else ["."]
          let rest := searchLoop env workflow_name commit_sha
            expected_conclusion test_id success_message error_message
            timeout poll_interval watchFuel verbose fuel (t + poll_interval)
            (attempt + 1)
          ⟨rest.outcome, poll_interval + rest.elapsed, rest.watched,
            located.2 ++ dotLog ++ rest.logs⟩
    else
      ⟨.exited 2, 0, none,
        ["❌ Error: No workflow was triggered by commit " ++ commit_sha ++
          (if truthyStr test_id then
            " with Test ID " ++ test_id.getD "" else "") ++
          " after " ++ toString timeout ++ " seconds"]⟩

/-- Model of `wait_on_action` (lines 171-280): optional verbose preamble, initial
sleep of one `poll_interval`, then the search loop.  The loop fuel is
`timeout + 1`, which is enough iterations whenever `poll_interval > 0`
(time advances by at least 1 per iteration); `watchFuel` bounds the
watcher's polling, which the source leaves unbounded. -/
def wait_on_action (env : Env)
    (commit_sha workflow_name expected_conclusion : String)
    (test_id success_message error_message : Option String)
    (timeout poll_interval watchFuel : Nat) (verbose : Bool) : WaitResult :=
  let startLogs := if verbose then
      ["Starting workflow monitoring:",
       "  Commit SHA: " ++ commit_sha,
       "  Workflow: " ++ workflow_name] ++
        (if truthyStr test_id then
          ["  Test ID: " ++ test_id.getD ""] else []) ++
        ["  Expected Conclusion: " ++ expected_conclusion,
         "  Timeout: " ++ toString timeout ++ " seconds",
         "  Poll Interval: " ++ toString poll_interval ++ " seconds"]
    else []
  let waitLog := ["Waiting for workflow to start (up to " ++
    toString timeout ++ " seconds)..."]
  let rest := searchLoop env workflow_name commit_sha expected_conclusion
    test_id success_message error_message timeout poll_interval watchFuel
    verbose (timeout + 1) 0 0
  ⟨rest.outcome, poll_interval + rest.elapsed, rest.watched,
    startLogs ++ waitLog ++ rest.logs⟩

/-! ### Order and membership lemmas for the locator's sort -/

lemma mem_insertDesc {a r : WorkflowRun} {l : List WorkflowRun} :
    a ∈ insertDesc r l ↔ a = r ∨ a ∈ l := by
  induction l with
  | nil => simp [insertDesc]
  | cons x xs ih =>
    by_cases h : r.created_at < x.created_at
    · simp only [insertDesc, if_pos h, List.mem_cons, ih]
      tauto
    · simp only [insertDesc, if_neg h, List.mem_cons]

lemma pairwise_insertDesc {r : WorkflowRun} {l : List WorkflowRun}
    (h : l.Pairwise fun a b => b.created_at ≤ a.created_at) :
    (insertDesc r l).Pairwise fun a b => b.created_at ≤ a.created_at := by
  induction l with
  | nil => simp [insertDesc]
  | cons x xs ih =>
    rcases List.pairwise_cons.mp h with ⟨hx, hxs⟩
    by_cases hlt : r.created_at < x.created_at
    · rw [insertDesc, if_pos hlt]
      refine List.pairwise_cons.mpr ⟨?_, ih hxs⟩
      intro b hb
      rcases mem_insertDesc.mp hb with rfl | hb
      · exact le_of_lt hlt
      · exact hx b hb
    · rw [insertDesc, if_neg hlt]
      refine List.pairwise_cons.mpr ⟨?_, h⟩
      intro b hb
      rcases List.mem_cons.mp hb with rfl | hb
      · exact not_lt.mp hlt
      · exact le_trans (hx b hb) (not_lt.mp hlt)

lemma pairwise_sortNewestFirst (l : List WorkflowRun) :
    (sortNewestFirst l).Pairwise fun a b => b.created_at ≤ a.created_at := by
  induction l with
  | nil => simp [sortNewestFirst]
  | cons x xs ih => exact pairwise_insertDesc ih

lemma mem_sortNewestFirst {a : WorkflowRun} {l : List WorkflowRun} :
    a ∈ sortNewestFirst l ↔ a ∈ l := by
  induction l with
  | nil => simp [sortNewestFirst]
  | cons x xs ih =>
    show a ∈ insertDesc x (sortNewestFirst xs) ↔ _
    rw [mem_insertDesc, ih, List.mem_cons]

/-! ### Locator lemmas -/

lemma head_sha_of_mem_filterRuns {run : WorkflowRun}
    {all_runs : List WorkflowRun} {commit_sha : String}
    {test_id : Option String}
    (h : run ∈ filterRuns all_runs commit_sha test_id) :
    run.head_sha = commit_sha := by
  unfold filterRuns at h
  by_cases ht : truthyStr test_id
  · rw [if_pos ht] at h
    have := (List.mem_filter.mp h).2
    have hsha : (run.head_sha == commit_sha) = true := by
      cases hb : run.head_sha == commit_sha
      · rw [hb] at this; simp at this
      · rfl
    exact beq_iff_eq.mp hsha
  · rw [if_neg ht] at h
    exact beq_iff_eq.mp (List.mem_filter.mp h).2

lemma pairwise_get_matching (fetch : FetchResult)
    (workflow_name commit_sha : String) (test_id : Option String) :
    ((get_matching_workflow_runs fetch workflow_name commit_sha
      test_id).1).Pairwise fun a b => b.created_at ≤ a.created_at := by
  cases fetch with
  | ok workflows =>
    unfold get_matching_workflow_runs
    cases hfind : findTargetWorkflow workflows workflow_name with
    | none => simp [hfind]
    | some wf =>
      simp only [hfind]
      exact pairwise_sortNewestFirst _

  | githubError e => simp [get_matching_workflow_runs]
  | otherError e => simp [get_matching_workflow_runs]

lemma mem_get_matching_head_sha {run : WorkflowRun} (fetch : FetchResult)
    (workflow_name commit_sha : String) (test_id : Option String)
    (h : run ∈ (get_matching_workflow_runs fetch workflow_name commit_sha
      test_id).1) :
    run.head_sha = commit_sha := by
  cases fetch with
  | ok workflows =>
    unfold get_matching_workflow_runs at h
    cases hfind : findTargetWorkflow workflows workflow_name with
    | none => simp [hfind] at h
    | some wf =>
      simp only [hfind] at h
      exact head_sha_of_mem_filterRuns (mem_sortNewestFirst.mp h)
  | githubError e => simp [get_matching_workflow_runs] at h
  | otherError e => simp [get_matching_workflow_runs] at h

/-! ### Concrete data for witnesses -/

/-- A run matching commit `abc123` whose title and name do not contain
the token `t-1`. -/
def runNoToken : WorkflowRun :=
  ⟨1, some "ci", some "nightly build", "abc123", "queued", none, 5⟩

/-- A completed run for commit `abc123` with conclusion `success`. -/
def runSuccess : WorkflowRun :=
  ⟨2, some "ci", some "deploy t-1", "abc123", "completed", some "success", 7⟩

/-- A workflow whose only run matches the SHA but not the token. -/
def wfNoToken : Workflow :=
  ⟨"ci", ".github/workflows/ci.yml", [runNoToken]⟩

/-- A workflow holding `runSuccess`. -/
def wfSuccess : Workflow :=
  ⟨"ci", ".github/workflows/ci.yml", [runSuccess]⟩

/-! ### Claim theorems about the locator and validator -/

/-- C1: if a correlation token (`test_id`) is supplied and no run that
matches the commit SHA has it as a substring of its display title or run
name, `get_matching_workflow_runs` returns the empty list — it never
falls back to the SHA-only matches, even when such matches exist. -/
theorem get_matching_token_precision
    (workflows : List Workflow) (workflow_name commit_sha tid : String)
    (htid : tid ≠ "")
    (hno : ∀ wf ∈ workflows, ∀ run ∈ wf.runs, run.head_sha = commit_sha →
      strContains (displayTitleOf run) tid = false ∧
      strContains (nameOf run) tid = false) :
    (get_matching_workflow_runs (.ok workflows) workflow_name commit_sha
      (some tid)).1 = [] := by
  unfold get_matching_workflow_runs
  cases hfind : findTargetWorkflow workflows workflow_name with
  | none => simp [hfind]
  | some wf =>
    simp only [hfind]
    have hwf : wf ∈ workflows := List.mem_of_find?_eq_some hfind
    have hfil : filterRuns wf.runs commit_sha (some tid) = [] := by
      unfold filterRuns
      have ht : truthyStr (some tid) = true := by
        unfold truthyStr
        simp [htid]
      rw [if_pos ht, List.filter_eq_nil_iff]
      intro run hrun
      simp only [Option.getD]
      by_cases hsha : run.head_sha = commit_sha
      · rcases hno wf hwf run hrun hsha with ⟨h1, h2⟩
        simp [h1, h2]
      · have : (run.head_sha == commit_sha) = false :=
          beq_eq_false_iff_ne.mpr hsha
        simp [this]
    simp [hfil, sortNewestFirst]

/-- Witness for C1: a SHA-only match exists but lacks the token, and the
result is empty. -/
theorem get_matching_token_precision_witness :
    ((("t-1" : String) ≠ "") ∧
      (∀ wf ∈ [wfNoToken], ∀ run ∈ wf.runs, run.head_sha = "abc123" →
        strContains (displayTitleOf run) "t-1" = false ∧
        strContains (nameOf run) "t-1" = false) ∧
      runNoToken ∈ wfNoToken.runs ∧ runNoToken.head_sha = "abc123") ∧
    (get_matching_workflow_runs (.ok [wfNoToken]) "ci" "abc123"
      (some "t-1")).1 = [] :=
  ⟨⟨by decide, by decide, by decide, by decide⟩,
    get_matching_token_precision [wfNoToken] "ci" "abc123" "t-1"
      (by decide) (by decide)⟩

/-- C4: every run returned by `get_matching_workflow_runs` has a head
commit SHA exactly equal (string equality) to the supplied SHA. -/
theorem get_matching_exact_sha (fetch : FetchResult)
    (workflow_name commit_sha : String) (test_id : Option String) :
    ∀ run ∈ (get_matching_workflow_runs fetch workflow_name commit_sha
      test_id).1, run.head_sha = commit_sha :=
  fun _run h =>
    mem_get_matching_head_sha fetch workflow_name commit_sha test_id h

/-- Witness for C4: a concrete run in a concrete non-empty result has
the supplied SHA. -/
theorem get_matching_exact_sha_witness :
    runSuccess ∈ (get_matching_workflow_runs (.ok [wfSuccess]) "ci"
      "abc123" none).1 ∧ runSuccess.head_sha = "abc123" :=
  ⟨by decide,
    get_matching_exact_sha (.ok [wfSuccess]) "ci" "abc123" none runSuccess
      (by decide)⟩

/-- C6: `validate_conclusion x x …` returns 0 for every non-empty `x`,
whatever the optional messages are, and `validate_conclusion x y …`
returns 1 whenever `x ≠ y`.  Being a total Lean function over its
modelled effects (the returned log lines), it never raises. -/
theorem validate_conclusion_exact (x y : String)
    (success_message error_message : Option String) :
    (x ≠ "" →
      (validate_conclusion x x success_message error_message).1 = 0) ∧
    (x ≠ y →
      (validate_conclusion x y success_message error_message).1 = 1) := by
  constructor
  · intro _
    unfold validate_conclusion
    simp
  · intro hxy
    unfold validate_conclusion
    have hb : (x == y) = false := beq_eq_false_iff_ne.mpr hxy
    simp [hb]

/-- Witness for C6 at `x = "success"`, `y = "failure"`. -/
theorem validate_conclusion_exact_witness :
    (("success" : String) ≠ "" ∧
      (validate_conclusion "success" "success" none none).1 = 0) ∧
    (("success" : String) ≠ "failure" ∧
      (validate_conclusion "success" "failure" none none).1 = 1) :=
  ⟨⟨by decide,
      (validate_conclusion_exact "success" "success" none none).1
        (by decide)⟩,
    ⟨by decide,
      (validate_conclusion_exact "success" "failure" none none).2
        (by decide)⟩⟩

/-- C7: on any GitHub client error during run location — a
`GithubException`, any other exception, or a pipeline-resolution failure
(workflow name not found) — `get_matching_workflow_runs` logs and
returns the empty list; being a total function of the modelled client
outcome, no exception propagates to its caller. -/
theorem get_matching_absorbs_errors (fetch : FetchResult)
    (workflow_name commit_sha : String) (test_id : Option String)
    (e : String)
    (h : fetch = .githubError e ∨ fetch = .otherError e ∨
      ∃ workflows, fetch = .ok workflows ∧
        findTargetWorkflow workflows workflow_name = none) :
    (get_matching_workflow_runs fetch workflow_name commit_sha
      test_id).1 = [] ∧
    (get_matching_workflow_runs fetch workflow_name commit_sha
      test_id).2 ≠ [] := by
  rcases h with rfl | rfl | ⟨workflows, rfl, hfind⟩
  · constructor <;> simp [get_matching_workflow_runs]
  · constructor <;> simp [get_matching_workflow_runs]
  · constructor <;> simp [get_matching_workflow_runs, hfind]

/-- Witness for C7: a rate-limit `GithubException` yields an empty
result and a non-empty log. -/
theorem get_matching_absorbs_errors_witness :
    ((FetchResult.githubError "rate limit" : FetchResult) =
        .githubError "rate limit" ∨
      (FetchResult.githubError "rate limit" : FetchResult) =
        .otherError "rate limit" ∨
      ∃ workflows, (FetchResult.githubError "rate limit" : FetchResult) =
          .ok workflows ∧ findTargetWorkflow workflows "ci" = none) ∧
    (get_matching_workflow_runs (.githubError "rate limit") "ci" "abc123"
      none).1 = [] ∧
    (get_matching_workflow_runs (.githubError "rate limit") "ci" "abc123"
      none).2 ≠ [] :=
  ⟨Or.inl rfl,
    get_matching_absorbs_errors (.githubError "rate limit") "ci" "abc123"
      none "rate limit" (Or.inl rfl)⟩

/-- C8: the list returned by `get_matching_workflow_runs` is sorted by
creation timestamp in descending order — for every pair of elements in
order (in particular every adjacent pair) the earlier one's `created_at`
is greater than or equal to the later one's. -/
theorem get_matching_sorted_desc (fetch : FetchResult)
    (workflow_name commit_sha : String) (test_id : Option String) :
    ((get_matching_workflow_runs fetch workflow_name commit_sha
      test_id).1).Pairwise fun a b => b.created_at ≤ a.created_at :=
  pairwise_get_matching fetch workflow_name commit_sha test_id

/-! ### Watcher lemmas -/

lemma watchFrom_concluded {fetch : Nat → Except String WorkflowRun}
    {run_id : Nat} {c : String} :
    ∀ {fuel i : Nat}, (watchFrom fetch run_id fuel i).1 = .concluded c →
      ∃ j, i ≤ j ∧ j < i + fuel ∧
        (∃ run, fetch j = .ok run ∧ run.status = "completed" ∧
          c = conclusionOr run.conclusion "unknown") ∧
        ∀ k, i ≤ k → k < j →
          ∃ run', fetch k = .ok run' ∧ run'.status ≠ "completed" := by
  intro fuel
  induction fuel with
  | zero =>
    intro i h
    simp [watchFrom] at h
  | succ f ih =>
    intro i h
    rw [watchFrom] at h
    cases hf : fetch i with
    | error e => simp [hf] at h
    | ok run =>
      simp only [hf] at h
      by_cases hs : (run.status == "completed") = true
      · rw [if_pos hs] at h
        simp only [WatchOutcome.concluded.injEq] at h
        refine ⟨i, le_refl i, by omega,
          ⟨run, hf, beq_iff_eq.mp hs, h.symm⟩, ?_⟩
        intro k hk1 hk2
        omega
      · rw [if_neg hs] at h
        obtain ⟨j, hj1, hj2, hrun, hprior⟩ := ih h
        refine ⟨j, by omega, by omega, hrun, ?_⟩
        intro k hk1 hk2
        rcases Nat.lt_or_ge k (i + 1) with hk | hk
        · have : k = i := by omega
          subst this
          exact ⟨run, hf, fun hc => hs (beq_iff_eq.mpr hc)⟩
        · exact hprior k hk hk2

/-- C2: if `watch_workflow_run` returns a conclusion, then the fetch it
returned on had `status = "completed"` and every earlier fetch was a run
that was not completed — it never returns a conclusion for a
non-terminal state — and the returned string is
`conclusion or "unknown"`, so an absent conclusion on the completed run
yields the literal `"unknown"`. -/
theorem watch_workflow_run_completed
    {fetch : Nat → Except String WorkflowRun} {run_id fuel : Nat}
    {c : String}
    (h : (watch_workflow_run fetch run_id fuel).1 = .concluded c) :
    ∃ j < fuel,
      (∃ run, fetch j = .ok run ∧ run.status = "completed" ∧
        c = conclusionOr run.conclusion "unknown" ∧
        (run.conclusion = none → c = "unknown")) ∧
      ∀ k < j, ∃ run', fetch k = .ok run' ∧ run'.status ≠ "completed" := by
  obtain ⟨j, _, hj2, ⟨run, hfj, hst, hc⟩, hprior⟩ := watchFrom_concluded h
  refine ⟨j, by omega, ⟨run, hfj, hst, hc, ?_⟩, fun k hk => hprior k (by omega) hk⟩
  intro hnone
  rw [hc, hnone]
  rfl

/-- A run still in progress, used by the C2 witness. -/
def runInProgress : WorkflowRun :=
  ⟨3, some "ci", some "deploy t-1", "abc123", "in_progress", none, 7⟩

/-- A completed run whose conclusion is absent, used by the C2 witness. -/
def runDoneNoConclusion : WorkflowRun :=
  ⟨3, some "ci", some "deploy t-1", "abc123", "completed", none, 7⟩

/-- Fetch schedule for the C2 witness: in progress once, then completed
with no conclusion. -/
def watchSched : Nat → Except String WorkflowRun := fun n =>
  if n = 0 then .ok runInProgress else .ok runDoneNoConclusion

/-- Witness for C2: watching under `watchSched` returns on the completed
fetch with the literal `"unknown"`. -/
theorem watch_workflow_run_completed_witness :
    (watch_workflow_run watchSched 3 4).1 = .concluded "unknown" ∧
    ∃ j < 4,
      (∃ run, watchSched j = .ok run ∧ run.status = "completed" ∧
        "unknown" = conclusionOr run.conclusion "unknown" ∧
        (run.conclusion = none → "unknown" = "unknown")) ∧
      ∀ k < j, ∃ run', watchSched k = .ok run' ∧
        run'.status ≠ "completed" :=
  ⟨by decide, @watch_workflow_run_completed watchSched 3 4 "unknown" (by decide)⟩

/-! ### Orchestrator lemmas -/

/-- How a watch outcome is turned into the orchestrator's outcome in the
found branch of the search loop: a conclusion is validated, a client
exception propagates, exhausted fuel means the watcher is still
polling. -/
def watchToWait (w : WatchOutcome) (expected_conclusion : String)
    (success_message error_message : Option String) : WaitOutcome :=
  match w with
  | .concluded c =>
    .exited (validate_conclusion c expected_conclusion success_message
      error_message).1
  | .fetchError e => .raised e
  | .stillPolling => .stillRunning

lemma searchLoop_found {env : Env}
    {workflow_name commit_sha expected_conclusion : String}
    {test_id success_message error_message : Option String}
    {timeout poll_interval watchFuel : Nat} {verbose : Bool}
    {run : WorkflowRun} {rest : List WorkflowRun}
    (hp : 0 < poll_interval) :
    ∀ n fuel t attempt : Nat,
      (∀ m < n, (get_matching_workflow_runs (env.fetchSched (attempt + m))
        workflow_name commit_sha test_id).1 = []) →
      (get_matching_workflow_runs (env.fetchSched (attempt + n))
        workflow_name commit_sha test_id).1 = run :: rest →
      t + n * poll_interval < timeout →
      n < fuel →
      (searchLoop env workflow_name commit_sha expected_conclusion test_id
        success_message error_message timeout poll_interval watchFuel
        verbose fuel t attempt).watched = some run ∧
      (searchLoop env workflow_name commit_sha expected_conclusion test_id
        success_message error_message timeout poll_interval watchFuel
        verbose fuel t attempt).outcome =
        watchToWait (watch_workflow_run (env.runFetch run.id) run.id
          watchFuel).1 expected_conclusion success_message
          error_message := by
  intro n
  induction n with
  | zero =>
    intro fuel t attempt hb hn ht hfuel
    obtain ⟨f, rfl⟩ : ∃ f, fuel = f + 1 := ⟨fuel - 1, by omega⟩
    have ht' : t < timeout := by
      simpa using ht
    rw [searchLoop, if_pos ht']
    rw [Nat.add_zero] at hn
    simp only [hn]
    cases hw : (watch_workflow_run (env.runFetch run.id) run.id
        watchFuel).1 with
    | concluded c => simp [watchToWait, hw]
    | fetchError e => simp [watchToWait, hw]
    | stillPolling => simp [watchToWait, hw]
  | succ n ih =>
    intro fuel t attempt hb hn ht hfuel
    obtain ⟨f, rfl⟩ : ∃ f, fuel = f + 1 := ⟨fuel - 1, by omega⟩
    have ht' : t < timeout := by
      rw [Nat.succ_mul] at ht
      omega
    rw [searchLoop, if_pos ht']
    have h0 : (get_matching_workflow_runs (env.fetchSched attempt)
        workflow_name commit_sha test_id).1 = [] := by
      have := hb 0 (by omega)
      rwa [Nat.add_zero] at this
    simp only [h0]
    have hb' : ∀ m < n, (get_matching_workflow_runs
        (env.fetchSched (attempt + 1 + m)) workflow_name commit_sha
        test_id).1 = [] := by
      intro m hm
      have h := hb (m + 1) (by omega)
      rwa [show attempt + (m + 1) = attempt + 1 + m by omega] at h
    have hn' : (get_matching_workflow_runs (env.fetchSched (attempt + 1 + n))
        workflow_name commit_sha test_id).1 = run :: rest := by
      rwa [show attempt + (n + 1) = attempt + 1 + n by omega] at hn
    have ht'' : (t + poll_interval) + n * poll_interval < timeout := by
      rw [Nat.succ_mul] at ht
      omega
    have hguard : (verbose && poll_interval == 0) = false := by
      have hz : (poll_interval == 0) = false := by
        simp [Nat.pos_iff_ne_zero.mp hp]
      simp [hz]
    rw [if_neg (by simp [hguard])]
    have := ih f (t + poll_interval) (attempt + 1) hb' hn' ht'' (by omega)
    exact this

/-- C3: when the locator first returns a non-empty list (at its n-th
call, still within the timeout window), the orchestrator hands exactly
the first element of that list to the watcher, and that element has the
greatest creation timestamp of the returned list; the model watches only
this one run for the rest of the invocation. -/
theorem wait_on_action_watches_newest (env : Env)
    (commit_sha workflow_name expected_conclusion : String)
    (test_id success_message error_message : Option String)
    (timeout poll_interval watchFuel : Nat) (verbose : Bool)
    (n : Nat) (run : WorkflowRun) (rest : List WorkflowRun)
    (hp : 0 < poll_interval)
    (hb : ∀ m < n, (get_matching_workflow_runs (env.fetchSched m)
      workflow_name commit_sha test_id).1 = [])
    (hn : (get_matching_workflow_runs (env.fetchSched n) workflow_name
      commit_sha test_id).1 = run :: rest)
    (ht : n * poll_interval < timeout) :
    (wait_on_action env commit_sha workflow_name expected_conclusion
      test_id success_message error_message timeout poll_interval
      watchFuel verbose).watched = some run ∧
    ∀ r ∈ run :: rest, r.created_at ≤ run.created_at := by
  constructor
  · have hnfuel : n < timeout + 1 := by
      have : n ≤ n * poll_interval := Nat.le_mul_of_pos_right n hp
      omega
    have hfound := @searchLoop_found env workflow_name commit_sha
      expected_conclusion test_id success_message error_message timeout
      poll_interval watchFuel verbose run rest hp n (timeout + 1) 0 0
      (fun m hm => by rw [Nat.zero_add]; exact hb m hm)
      (by rwa [Nat.zero_add])
      (by omega)
      hnfuel
    unfold wait_on_action
    exact hfound.1
  · intro r hr
    have hpw := pairwise_get_matching (env.fetchSched n) workflow_name
      commit_sha test_id
    rw [hn] at hpw
    rcases List.mem_cons.mp hr with rfl | hr
    · exact le_refl _
    · exact (List.pairwise_cons.mp hpw).1 r hr

/-- Two runs for the same commit and token, created at 100 and 105. -/
def runOlder : WorkflowRun :=
  ⟨1, some "ci", some "deploy t-1", "abc123", "queued", none, 100⟩

/-- The later-created of the two matching runs. -/
def runNewer : WorkflowRun :=
  ⟨2, some "ci", some "deploy t-1", "abc123", "queued", none, 105⟩

/-- A workflow holding both matching runs, older first. -/
def wfTwoRuns : Workflow :=
  ⟨"ci", ".github/workflows/ci.yml", [runOlder, runNewer]⟩

/-- Environment for the C3 witness: both runs visible at once, and the
watcher always sees a successful completed run. -/
def envTwoRuns : Env :=
  ⟨fun _ => .ok [wfTwoRuns], fun _ _ => .ok runSuccess⟩

/-- Witness for C3 (the spec's scenario 4): of two runs matching commit
`abc123` and token `t-1` created at 100 and 105, the one created at 105
is watched. -/
theorem wait_on_action_watches_newest_witness :
    (0 < 2) ∧
    ((get_matching_workflow_runs (envTwoRuns.fetchSched 0) "ci" "abc123"
      (some "t-1")).1 = runNewer :: [runOlder]) ∧
    (0 * 2 < 10) ∧
    ((wait_on_action envTwoRuns "abc123" "ci" "success" (some "t-1") none
      none 10 2 20 false).watched = some runNewer ∧
      ∀ r ∈ runNewer :: [runOlder], r.created_at ≤ runNewer.created_at) :=
  ⟨by decide, by decide, by decide,
    wait_on_action_watches_newest envTwoRuns "abc123" "ci" "success"
      (some "t-1") none none 10 2 20 false 0 runNewer [runOlder]
      (by decide) (fun m hm => absurd hm (Nat.not_lt_zero m)) (by decide)
      (by decide)⟩

/-- C10: when the locator has matched a run but a client exception is
raised while the watcher fetches it, the exception propagates out of
`watch_workflow_run` and out of `wait_on_action`: the invocation ends
`raised`, which is none of the exit codes 0, 1 or 2. -/
theorem wait_on_action_watch_error_propagates (env : Env)
    (commit_sha workflow_name expected_conclusion : String)
    (test_id success_message error_message : Option String)
    (timeout poll_interval watchFuel : Nat) (verbose : Bool)
    (n : Nat) (run : WorkflowRun) (rest : List WorkflowRun) (e : String)
    (hp : 0 < poll_interval)
    (hb : ∀ m < n, (get_matching_workflow_runs (env.fetchSched m)
      workflow_name commit_sha test_id).1 = [])
    (hn : (get_matching_workflow_runs (env.fetchSched n) workflow_name
      commit_sha test_id).1 = run :: rest)
    (ht : n * poll_interval < timeout)
    (hw : (watch_workflow_run (env.runFetch run.id) run.id watchFuel).1 =
      .fetchError e) :
    (wait_on_action env commit_sha workflow_name expected_conclusion
      test_id success_message error_message timeout poll_interval
      watchFuel verbose).outcome = .raised e ∧
    ∀ code, (wait_on_action env commit_sha workflow_name
      expected_conclusion test_id success_message error_message timeout
      poll_interval watchFuel verbose).outcome ≠ .exited code := by
  have hnfuel : n < timeout + 1 := by
    have : n ≤ n * poll_interval := Nat.le_mul_of_pos_right n hp
    omega
  have hfound := @searchLoop_found env workflow_name commit_sha
    expected_conclusion test_id success_message error_message timeout
    poll_interval watchFuel verbose run rest hp n (timeout + 1) 0 0
    (fun m hm => by rw [Nat.zero_add]; exact hb m hm)
    (by rwa [Nat.zero_add])
    (by omega)
    hnfuel
  have houtcome : (wait_on_action env commit_sha workflow_name
      expected_conclusion test_id success_message error_message timeout
      poll_interval watchFuel verbose).outcome = .raised e := by
    unfold wait_on_action
    rw [hfound.2, hw]
    rfl
  refine ⟨houtcome, fun code => ?_⟩
  rw [houtcome]
  exact fun h => WaitOutcome.noConfusion h

/-- Environment for the C10 witness: the matched run is visible at once,
but every watcher fetch raises. -/
def envWatchError : Env :=
  ⟨fun _ => .ok [wfSuccess], fun _ _ => .error "network down"⟩

/-- Witness for C10: the network failure during watching surfaces as a
`raised` outcome. -/
theorem wait_on_action_watch_error_propagates_witness :
    (0 < 2) ∧
    ((get_matching_workflow_runs (envWatchError.fetchSched 0) "ci"
      "abc123" none).1 = runSuccess :: []) ∧
    (0 * 2 < 10) ∧
    ((watch_workflow_run (envWatchError.runFetch runSuccess.id)
      runSuccess.id 20).1 = .fetchError "network down") ∧
    ((wait_on_action envWatchError "abc123" "ci" "success" none none none
      10 2 20 false).outcome = .raised "network down" ∧
      ∀ code, (wait_on_action envWatchError "abc123" "ci" "success" none
        none none 10 2 20 false).outcome ≠ .exited code) :=
  ⟨by decide, by decide, by decide, by decide,
    wait_on_action_watch_error_propagates envWatchError "abc123" "ci"
      "success" none none none 10 2 20 false 0 runSuccess [] "network down"
      (by decide) (fun m hm => absurd hm (Nat.not_lt_zero m)) (by decide)
      (by decide) (by decide)⟩

lemma searchLoop_no_match {env : Env}
    {workflow_name commit_sha expected_conclusion : String}
    {test_id success_message error_message : Option String}
    {timeout poll_interval watchFuel : Nat} {verbose : Bool}
    (hE : ∀ m, (get_matching_workflow_runs (env.fetchSched m)
      workflow_name commit_sha test_id).1 = [])
    (hp : 0 < poll_interval) :
    ∀ fuel t attempt : Nat,
      timeout + poll_interval ≤ t + fuel * poll_interval →
      0 < fuel →
      (searchLoop env workflow_name commit_sha expected_conclusion test_id
        success_message error_message timeout poll_interval watchFuel
        verbose fuel t attempt).outcome = .exited 2 ∧
      (searchLoop env workflow_name commit_sha expected_conclusion test_id
        success_message error_message timeout poll_interval watchFuel
        verbose fuel t attempt).watched = none ∧
      (t < timeout →
        timeout ≤ t + (searchLoop env workflow_name commit_sha
          expected_conclusion test_id success_message error_message
          timeout poll_interval watchFuel verbose fuel t attempt).elapsed ∧
        t + (searchLoop env workflow_name commit_sha expected_conclusion
          test_id success_message error_message timeout poll_interval
          watchFuel verbose fuel t attempt).elapsed <
          timeout + poll_interval) ∧
      (timeout ≤ t →
        (searchLoop env workflow_name commit_sha expected_conclusion
          test_id success_message error_message timeout poll_interval
          watchFuel verbose fuel t attempt).elapsed = 0) := by
  intro fuel
  induction fuel with
  | zero =>
    intro t attempt _ hpos
    exact absurd hpos (by omega)
  | succ f ih =>
    intro t attempt hf _
    by_cases h : t < timeout
    · rw [searchLoop, if_pos h]
      simp only [hE attempt]
      have hguard : (verbose && poll_interval == 0) = false := by
        have hz : (poll_interval == 0) = false := by
          simp [Nat.pos_iff_ne_zero.mp hp]
        simp [hz]
      simp only [hguard, Bool.false_eq_true, if_false]
      rcases Nat.eq_zero_or_pos f with rfl | hfpos
      · rw [Nat.one_mul] at hf
        omega
      · have hf' : timeout + poll_interval ≤
            (t + poll_interval) + f * poll_interval := by
          rw [Nat.succ_mul] at hf
          omega
        have hrec := ih (t + poll_interval) (attempt + 1) hf' hfpos
        refine ⟨hrec.1, hrec.2.1, fun _ => ?_, fun hge => absurd hge (by omega)⟩
        by_cases h2 : t + poll_interval < timeout
        · have := hrec.2.2.1 h2
          constructor <;> omega
        · have := hrec.2.2.2 (by omega)
          rw [this]
          constructor <;> omega
    · rw [searchLoop, if_neg h]
      exact ⟨rfl, rfl, fun hlt => absurd hlt h, fun _ => rfl⟩

/-- C5 (amended): if no run ever matches, `wait_on_action` returns exit
code 2 after first sleeping one `poll_interval` before the first search;
the total time it sleeps exceeds the configured timeout by at least one
and by less than two poll intervals. -/
theorem wait_on_action_timeout_exit2 (env : Env)
    (commit_sha workflow_name expected_conclusion : String)
    (test_id success_message error_message : Option String)
    (timeout poll_interval watchFuel : Nat) (verbose : Bool)
    (hp : 0 < poll_interval)
    (hE : ∀ m, (get_matching_workflow_runs (env.fetchSched m)
      workflow_name commit_sha test_id).1 = []) :
    (wait_on_action env commit_sha workflow_name expected_conclusion
      test_id success_message error_message timeout poll_interval
      watchFuel verbose).outcome = .exited 2 ∧
    (wait_on_action env commit_sha workflow_name expected_conclusion
      test_id success_message error_message timeout poll_interval
      watchFuel verbose).watched = none ∧
    timeout + poll_interval ≤ (wait_on_action env commit_sha workflow_name
      expected_conclusion test_id success_message error_message timeout
      poll_interval watchFuel verbose).elapsed ∧
    (wait_on_action env commit_sha workflow_name expected_conclusion
      test_id success_message error_message timeout poll_interval
      watchFuel verbose).elapsed < timeout + 2 * poll_interval := by
  have hfsuff : timeout + poll_interval ≤
      0 + (timeout + 1) * poll_interval := by
    have : timeout ≤ timeout * poll_interval :=
      Nat.le_mul_of_pos_right timeout hp
    rw [Nat.succ_mul]
    omega
  have key := @searchLoop_no_match env workflow_name commit_sha
    expected_conclusion test_id success_message error_message timeout
    poll_interval watchFuel verbose hE hp (timeout + 1) 0 0 hfsuff
    (by omega)
  have ho : (wait_on_action env commit_sha workflow_name
      expected_conclusion test_id success_message error_message timeout
      poll_interval watchFuel verbose).outcome =
      (searchLoop env workflow_name commit_sha expected_conclusion
        test_id success_message error_message timeout poll_interval
        watchFuel verbose (timeout + 1) 0 0).outcome := rfl
  have hwa : (wait_on_action env commit_sha workflow_name
      expected_conclusion test_id success_message error_message timeout
      poll_interval watchFuel verbose).watched =
      (searchLoop env workflow_name commit_sha expected_conclusion
        test_id success_message error_message timeout poll_interval
        watchFuel verbose (timeout + 1) 0 0).watched := rfl
  have hel : (wait_on_action env commit_sha workflow_name
      expected_conclusion test_id success_message error_message timeout
      poll_interval watchFuel verbose).elapsed =
      poll_interval + (searchLoop env workflow_name commit_sha
        expected_conclusion test_id success_message error_message timeout
        poll_interval watchFuel verbose (timeout + 1) 0 0).elapsed := rfl
  rw [ho, hwa, hel]
  refine ⟨key.1, key.2.1, ?_, ?_⟩
  · rcases Nat.eq_zero_or_pos timeout with rfl | htpos
    · have h0 := key.2.2.2 (by omega)
      omega
    · have := key.2.2.1 htpos
      omega
  · rcases Nat.eq_zero_or_pos timeout with rfl | htpos
    · have h0 := key.2.2.2 (by omega)
      omega
    · have := key.2.2.1 htpos
      omega

/-- Environment in which the locator never sees any workflow. -/
def envNoRuns : Env :=
  ⟨fun _ => .ok [], fun _ _ => .ok runSuccess⟩

/-- Witness for the amended C5 at timeout 10, poll interval 2: exit
code 2 with total sleep within [12, 14). -/
theorem wait_on_action_timeout_exit2_witness :
    (0 < 2) ∧
    (∀ m, (get_matching_workflow_runs (envNoRuns.fetchSched m) "ci"
      "abc123" none).1 = []) ∧
    ((wait_on_action envNoRuns "abc123" "ci" "success" none none none 10 2
      20 false).outcome = .exited 2 ∧
      (wait_on_action envNoRuns "abc123" "ci" "success" none none none 10
        2 20 false).watched = none ∧
      10 + 2 ≤ (wait_on_action envNoRuns "abc123" "ci" "success" none none
        none 10 2 20 false).elapsed ∧
      (wait_on_action envNoRuns "abc123" "ci" "success" none none none 10
        2 20 false).elapsed < 10 + 2 * 2) :=
  ⟨by decide, fun m => by rfl,
    wait_on_action_timeout_exit2 envNoRuns "abc123" "ci" "success" none
      none none 10 2 20 false (by decide) (fun m => by rfl)⟩

/-- Counterexample to C5 as stated: with timeout 10 and poll interval 3
and no matching run ever, the orchestrator sleeps 15 seconds in total —
the initial poll-interval sleep plus four 3-second search-loop sleeps —
which exceeds the 10-second timeout by more than one poll interval. -/
theorem wait_on_action_timeout_counterexample :
    (wait_on_action envNoRuns "abc123" "ci" "success" none none none 10 3
      20 false).outcome = .exited 2 ∧
    (wait_on_action envNoRuns "abc123" "ci" "success" none none none 10 3
      20 false).elapsed = 15 ∧
    10 + 3 < (wait_on_action envNoRuns "abc123" "ci" "success" none none
      none 10 3 20 false).elapsed := by
  refine ⟨by rfl, by rfl, ?_⟩
  have h : (wait_on_action envNoRuns "abc123" "ci" "success" none none
      none 10 3 20 false).elapsed = 15 := by rfl
  rw [h]
  omega

lemma searchLoop_verbose_irrelevant {env : Env}
    {workflow_name commit_sha expected_conclusion : String}
    {test_id success_message error_message : Option String}
    {timeout poll_interval watchFuel : Nat} (v₁ v₂ : Bool)
    (hp : 0 < poll_interval) :
    ∀ fuel t attempt : Nat,
      (searchLoop env workflow_name commit_sha expected_conclusion test_id
        success_message error_message timeout poll_interval watchFuel v₁
        fuel t attempt).outcome =
      (searchLoop env workflow_name commit_sha expected_conclusion test_id
        success_message error_message timeout poll_interval watchFuel v₂
        fuel t attempt).outcome ∧
      (searchLoop env workflow_name commit_sha expected_conclusion test_id
        success_message error_message timeout poll_interval watchFuel v₁
        fuel t attempt).elapsed =
      (searchLoop env workflow_name commit_sha expected_conclusion test_id
        success_message error_message timeout poll_interval watchFuel v₂
        fuel t attempt).elapsed ∧
      (searchLoop env workflow_name commit_sha expected_conclusion test_id
        success_message error_message timeout poll_interval watchFuel v₁
        fuel t attempt).watched =
      (searchLoop env workflow_name commit_sha expected_conclusion test_id
        success_message error_message timeout poll_interval watchFuel v₂
        fuel t attempt).watched := by
  intro fuel
  induction fuel with
  | zero =>
    intro t attempt
    exact ⟨rfl, rfl, rfl⟩
  | succ f ih =>
    intro t attempt
    by_cases h : t < timeout
    · rw [searchLoop, searchLoop, if_pos h, if_pos h]
      cases hloc : (get_matching_workflow_runs (env.fetchSched attempt)
          workflow_name commit_sha test_id).1 with
      | nil =>
        simp only [hloc]
        have hz : (poll_interval == 0) = false := by
          simp [Nat.pos_iff_ne_zero.mp hp]
        have hguard₁ : (v₁ && poll_interval == 0) = false := by
          simp [hz]
        have hguard₂ : (v₂ && poll_interval == 0) = false := by
          simp [hz]
        simp only [hguard₁, hguard₂, Bool.false_eq_true, if_false]
        have hrec := ih (t + poll_interval) (attempt + 1)
        exact ⟨hrec.1, by rw [hrec.2.1], hrec.2.2⟩
      | cons run rs =>
        simp only [hloc]
        cases (watch_workflow_run (env.runFetch run.id) run.id
            watchFuel).1 with
        | concluded c => exact ⟨rfl, rfl, rfl⟩
        | fetchError e => exact ⟨rfl, rfl, rfl⟩
        | stillPolling => exact ⟨rfl, rfl, rfl⟩
    · rw [searchLoop, searchLoop, if_neg h, if_neg h]
      exact ⟨rfl, rfl, rfl⟩

/-- C9 (amended): two `wait_on_action` invocations with a positive poll
interval that differ only in the verbose flag produce the same outcome
(hence the same exit code), the same total sleep time and watch the same
run — under a positive poll interval, verbosity changes only the log
output.  The positivity hypothesis is needed: with `poll_interval = 0`
the verbose-only debug line of source line 268 divides by the poll
interval and raises. -/
theorem wait_on_action_verbose_independent (env : Env)
    (commit_sha workflow_name expected_conclusion : String)
    (test_id success_message error_message : Option String)
    (timeout poll_interval watchFuel : Nat) (v₁ v₂ : Bool)
    (hp : 0 < poll_interval) :
    (wait_on_action env commit_sha workflow_name expected_conclusion
      test_id success_message error_message timeout poll_interval
      watchFuel v₁).outcome =
    (wait_on_action env commit_sha workflow_name expected_conclusion
      test_id success_message error_message timeout poll_interval
      watchFuel v₂).outcome ∧
    (wait_on_action env commit_sha workflow_name expected_conclusion
      test_id success_message error_message timeout poll_interval
      watchFuel v₁).elapsed =
    (wait_on_action env commit_sha workflow_name expected_conclusion
      test_id success_message error_message timeout poll_interval
      watchFuel v₂).elapsed ∧
    (wait_on_action env commit_sha workflow_name expected_conclusion
      test_id success_message error_message timeout poll_interval
      watchFuel v₁).watched =
    (wait_on_action env commit_sha workflow_name expected_conclusion
      test_id success_message error_message timeout poll_interval
      watchFuel v₂).watched := by
  have key := @searchLoop_verbose_irrelevant env workflow_name commit_sha
    expected_conclusion test_id success_message error_message timeout
    poll_interval watchFuel v₁ v₂ hp (timeout + 1) 0 0
  exact ⟨key.1, by
      show poll_interval + _ = poll_interval + _
      rw [key.2.1],
    key.2.2⟩

/-- Witness for the amended C9: with poll interval 2 and no matching
runs, the verbose and non-verbose invocations agree on outcome, total
sleep time and watched run. -/
theorem wait_on_action_verbose_independent_witness :
    (0 < 2) ∧
    ((wait_on_action envNoRuns "abc123" "ci" "success" none none none 10
      2 20 true).outcome =
    (wait_on_action envNoRuns "abc123" "ci" "success" none none none 10 2
      20 false).outcome ∧
    (wait_on_action envNoRuns "abc123" "ci" "success" none none none 10 2
      20 true).elapsed =
    (wait_on_action envNoRuns "abc123" "ci" "success" none none none 10 2
      20 false).elapsed ∧
    (wait_on_action envNoRuns "abc123" "ci" "success" none none none 10 2
      20 true).watched =
    (wait_on_action envNoRuns "abc123" "ci" "success" none none none 10 2
      20 false).watched) :=
  ⟨by decide,
    wait_on_action_verbose_independent envNoRuns "abc123" "ci" "success"
      none none none 10 2 20 true false (by decide)⟩

/-- Counterexample to C9 as stated: with `poll_interval = 0` and no run
ever matching, the verbose invocation raises `ZeroDivisionError` — the
attempt-counter debug line of source line 268 divides elapsed time by
the poll interval — while the non-verbose invocation, which never builds
that line, does not raise and keeps polling.  The outcomes differ, so
the verbose flag can change control flow and the result. -/
theorem wait_on_action_verbose_counterexample :
    (wait_on_action envNoRuns "abc123" "ci" "success" none none none 10 0
      20 true).outcome =
      .raised "ZeroDivisionError: integer division or modulo by zero" ∧
    (wait_on_action envNoRuns "abc123" "ci" "success" none none none 10 0
      20 false).outcome = .stillRunning ∧
    (wait_on_action envNoRuns "abc123" "ci" "success" none none none 10 0
      20 true).outcome ≠
    (wait_on_action envNoRuns "abc123" "ci" "success" none none none 10 0
      20 false).outcome := by
  decide

end WaitOnAction
